import Mathlib

/-!
Verification development for the qtc trading engine.

Shallow embedding of the ledger state machine (`app/services/trade_executor.py`),
the pending-order tracker (`app/services/order_tracker.py`), the signal schema
(`app/models/trading.py`), the per-tick orchestration (`app/main.py`), the static
code scan (`app/loaders/static_check.py`, `app/loaders/git_fetch.py`) and the
day-rollover fold.  Python `Decimal` values are embedded as exact rationals;
wall-clock timestamps as natural numbers.
-/

namespace QTC

/-- `Side` literal from `app/models/teams.py`: "buy" or "sell". -/
inductive Side where
  | buy
  | sell
deriving DecidableEq, Repr

/-- `OrderType` literal from `app/models/teams.py`. -/
inductive OrderType where
  | market
  | limit
  | stop
  | stop_limit
deriving DecidableEq, Repr

/-- `Position` model from `app/models/teams.py`. -/
structure Position where
  symbol : String
  quantity : ℚ
  side : Side
  avgCost : ℚ
  costBasis : ℚ
deriving DecidableEq, Repr

/-- `Position.fromTrade` from `app/models/teams.py`: avgCost is the trade price
and costBasis is `abs(qty) * price`. -/
def Position.fromTrade (symbol : String) (qty : ℚ) (side : Side) (price : ℚ) : Position :=
  { symbol := symbol
    quantity := qty
    side := side
    avgCost := price
    costBasis := |qty| * price }

/-- Association-list lookup, embedding Python `dict.get`. -/
def alookup {α : Type} (m : List (String × α)) (k : String) : Option α :=
  match m with
  | [] => none
  | (k₁, v) :: rest => if k₁ = k then some v else alookup rest k

/-- Association-list update, embedding Python `d[k] = v`: replaces the entry in
place when the key exists, otherwise appends it. -/
def ainsert {α : Type} (m : List (String × α)) (k : String) (v : α) : List (String × α) :=
  match m with
  | [] => [(k, v)]
  | (k₁, v₁) :: rest => if k₁ = k then (k, v) :: rest else (k₁, v₁) :: ainsert rest k v

/-- Association-list removal, embedding Python `del d[k]`. -/
def aerase {α : Type} (m : List (String × α)) (k : String) : List (String × α) :=
  match m with
  | [] => []
  | (k₁, v₁) :: rest => if k₁ = k then aerase rest k else (k₁, v₁) :: aerase rest k

/-- `Portfolio` model from `app/models/teams.py`: free cash plus positions keyed
by ticker. -/
structure Portfolio where
  freeCash : ℚ
  positions : List (String × Position)
deriving DecidableEq, Repr

/-- `TradeRequest` model from `app/models/trading.py` (ledger-relevant fields). -/
structure TradeRequest where
  team_id : String
  symbol : String
  side : Side
  quantity : ℚ
  price : ℚ
  order_type : OrderType
  time_in_force : String
deriving DecidableEq, Repr

/-- `TradeRecord` model from `app/models/trading.py`. -/
structure TradeRecord where
  team_id : String
  symbol : String
  side : Side
  quantity : ℚ
  requested_price : ℚ
  execution_price : ℚ
  order_type : OrderType
  timestamp : ℕ
  broker_order_id : Option String
deriving DecidableEq, Repr

/-- Modelled from the spec: the `PendingOrder` pydantic model is imported from
`app.models.trading` by the executor and the tracker but its class definition is
absent from the sources; the fields follow the data-model table of the spec and
the keyword arguments of the two construction sites in
`app/services/trade_executor.py`.  `status` is a plain string, as the tracker
assigns broker-reported status strings to it. -/
structure PendingOrder where
  order_id : String
  team_id : String
  symbol : String
  side : Side
  quantity : ℚ
  order_type : OrderType
  limit_price : Option ℚ
  status : String
  filled_qty : ℚ
  filled_avg_price : Option ℚ
  time_in_force : String
  created_at : ℕ
  updated_at : ℕ
  broker_order_id : Option String
  requested_price : ℚ
deriving DecidableEq, Repr

/-- `TradeExecutor._validate_trade`: a buy fails when `freeCash < quantity * price`;
a sell fails when there is no position for the symbol or its quantity is below
the requested one. -/
def validate_trade (port : Portfolio) (symbol : String) (side : Side)
    (quantity price : ℚ) : Bool :=
  match side with
  | .buy => !(port.freeCash < quantity * price)
  | .sell =>
    match alookup port.positions symbol with
    | none => false
    | some pos => !(pos.quantity < quantity)

/-- `TradeExecutor._calculate_execution_price`: returns the requested price
unchanged (no simulated slippage). -/
def calculate_execution_price (requested_price : ℚ) (_ : Side) : ℚ :=
  requested_price

/-- `TradeExecutor._update_portfolio`.  A buy folds the trade into the existing
position with the weighted-average cost `(oldQty*oldAvg + qty*price) / (oldQty+qty)`
and debits cash; a sell reduces the position, deletes it when the remaining
quantity is `≤ 0`, and credits cash. -/
def update_portfolio (port : Portfolio) (symbol : String) (side : Side)
    (quantity price : ℚ) : Portfolio :=
  match side with
  | .buy =>
    let positions :=
      match alookup port.positions symbol with
      | some existing =>
        let total_cost := existing.quantity * existing.avgCost + quantity * price
        let total_quantity := existing.quantity + quantity
        let new_avg_cost := total_cost / total_quantity
        ainsert port.positions symbol
          { symbol := symbol
            quantity := total_quantity
            side := .buy
            avgCost := new_avg_cost
            costBasis := total_quantity * new_avg_cost }
      | none =>
        ainsert port.positions symbol (Position.fromTrade symbol quantity .buy price)
    { freeCash := port.freeCash - quantity * price, positions := positions }
  | .sell =>
    let positions :=
      match alookup port.positions symbol with
      | some existing =>
        let new_quantity := existing.quantity - quantity
        if new_quantity ≤ 0 then
          aerase port.positions symbol
        else
          ainsert port.positions symbol
            { symbol := symbol
              quantity := new_quantity
              side := existing.side
              avgCost := existing.avgCost
              costBasis := new_quantity * existing.avgCost }
      | none => port.positions
    { freeCash := port.freeCash + quantity * price, positions := positions }

/-- Combined per-tenant execution state: the tenant portfolio (mutated only by
`_update_portfolio`), the pending-order index owned by `OrderTracker`
(`order_id` to `PendingOrder`), the append-only trade log (`trades.jsonl`) and
the count of appended portfolio snapshots (the per-team daily JSONL). -/
structure ExecState where
  portfolio : Portfolio
  pending : List (String × PendingOrder)
  trades : List TradeRecord
  snaps : ℕ
deriving DecidableEq, Repr

/-- Environment of one `execute` call against the broker adapter:
`noBroker` when `load_broker_from_env` returned `None`; `ok` when the order
submission returned an order id (for market orders, `marketFill` is the
`filled_avg_price` reported by `getOrderById`, `none` when missing or when the
lookup raised); `submitRaises` when the submission call raised. -/
inductive BrokerEnv where
  | noBroker
  | ok (orderId : String) (marketFill : Option ℚ)
  | submitRaises
deriving DecidableEq, Repr

/-- The `PendingOrder` built at the limit-order branch of `TradeExecutor.execute`. -/
def mkPendingOrder (orderId : String) (req : TradeRequest) (now : ℕ) : PendingOrder :=
  { order_id := orderId
    team_id := req.team_id
    symbol := req.symbol
    side := req.side
    quantity := req.quantity
    order_type := req.order_type
    limit_price := some req.price
    status := "new"
    filled_qty := 0
    filled_avg_price := none
    time_in_force := req.time_in_force
    created_at := now
    updated_at := now
    broker_order_id := some orderId
    requested_price := req.price }

/-- The tail of `TradeExecutor.execute` when `should_update_portfolio` holds:
applies `_update_portfolio` at the execution price, then appends one
`TradeRecord` and one `PortfolioSnapshot`. -/
def applyAndRecord (team : String) (st : ExecState) (req : TradeRequest)
    (brokerOrderId : Option String) (execPrice : ℚ) (now : ℕ) :
    ExecState × Bool × String :=
  let port := update_portfolio st.portfolio req.symbol req.side req.quantity execPrice
  let tr : TradeRecord :=
    { team_id := team
      symbol := req.symbol
      side := req.side
      quantity := req.quantity
      requested_price := req.price
      execution_price := execPrice
      order_type := req.order_type
      timestamp := now
      broker_order_id := brokerOrderId }
  ({ st with
      portfolio := port
      trades := st.trades ++ [tr]
      snaps := st.snaps + 1 },
    true, "Trade executed successfully")

/-- `TradeExecutor.execute`.  Rejects when the symbol is outside its trading
session or validation fails.  With a broker, market orders are submitted and
then applied to the ledger at the broker fill price (falling back to the
requested price); limit orders are stored as a `PendingOrder` in the tracker
index and `execute` returns success without touching the ledger.  Without a
broker, or when the submission raises, every order type is applied to the
ledger immediately at the requested price. -/
def execute (team : String) (st : ExecState) (req : TradeRequest)
    (symbolTrading : Bool) (broker : BrokerEnv) (now : ℕ) :
    ExecState × Bool × String :=
  if !symbolTrading then
    (st, false, "Market closed")
  else if !validate_trade st.portfolio req.symbol req.side req.quantity req.price then
    (st, false, "Trade validation failed")
  else
    match broker, req.order_type with
    | .ok orderId marketFill, .market =>
      let execPrice :=
        match marketFill with
        | some p => p
        | none => calculate_execution_price req.price req.side
      applyAndRecord team st req (some orderId) execPrice now
    | .ok orderId _, .limit =>
      ({ st with pending := ainsert st.pending orderId (mkPendingOrder orderId req now) },
        true, "Limit order placed")
    | _, _ =>
      applyAndRecord team st req none (calculate_execution_price req.price req.side) now

/-- Broker status payload consumed by `OrderTracker.update_order_status`
(the dictionary from `getOrderById`): absent keys are `none`. -/
structure StatusData where
  status : Option String
  filled_qty : Option ℚ
  filled_avg_price : Option ℚ
deriving DecidableEq, Repr

/-- `OrderTracker._create_trade_record_from_order`: the trade record synthesized
from a filled pending order. -/
def tradeRecordFromOrder (o : PendingOrder) : TradeRecord :=
  { team_id := o.team_id
    symbol := o.symbol
    side := o.side
    quantity := o.quantity
    requested_price := o.requested_price
    execution_price :=
      match o.filled_avg_price with
      | some p => p
      | none => o.requested_price
    order_type := o.order_type
    timestamp := o.updated_at
    broker_order_id := o.broker_order_id }

/-- The truthiness test `order.status == "filled" and order.filled_avg_price`
in `OrderTracker.update_order_status`: a `Decimal` zero is falsy in Python, so a
fill at a price of zero does not count. -/
def filledWithPrice (o : PendingOrder) : Bool :=
  o.status = "filled" &&
    (match o.filled_avg_price with
     | some p => !(p = 0)
     | none => false)

/-- The field-update section of `OrderTracker.update_order_status`: the broker
status is applied (keeping the old one when the key is absent), `updated_at` is
refreshed, and `filled_qty` and `filled_avg_price` are overwritten only when
present in the payload. -/
def applyStatusData (order : PendingOrder) (sd : StatusData) (now : ℕ) : PendingOrder :=
  let o₁ := { order with
    status := match sd.status with
      | some s => s
      | none => order.status
    updated_at := now }
  let o₂ := match sd.filled_qty with
    | some q => { o₁ with filled_qty := q }
    | none => o₁
  match sd.filled_avg_price with
  | some p => { o₂ with filled_avg_price := some p }
  | none => o₂

/-- `OrderTracker.update_order_status`: looks the order up in the pending index,
applies the broker fields (each only when present), and when the resulting
status is "filled" with a truthy fill price appends exactly one trade record to
the trade log and deletes the order from the index.  The tenant portfolio is
never read or written by the tracker.  Returns the updated state together with
the updated order (`none` when the id is unknown). -/
def update_order_status (st : ExecState) (orderId : String) (sd : StatusData)
    (now : ℕ) : ExecState × Option PendingOrder :=
  match alookup st.pending orderId with
  | none => (st, none)
  | some order =>
    let o := applyStatusData order sd now
    if filledWithPrice o then
      ({ st with
          pending := aerase st.pending orderId
          trades := st.trades ++ [tradeRecordFromOrder o] },
        some o)
    else
      ({ st with pending := ainsert st.pending orderId o }, some o)

/-- `OrderTracker.get_open_orders`: all orders of the tenant whose status is not
terminal. -/
def get_open_orders (st : ExecState) (teamId : String) : List PendingOrder :=
  ((st.pending.map Prod.snd).filter fun o =>
    o.team_id = teamId &&
      !(o.status = "filled" || o.status = "cancelled" ||
        o.status = "rejected" || o.status = "expired"))

/-- A raw signal dictionary returned by tenant code, as seen by
`StrategySignal.model_validate` in `_execute_team_strategy`: absent keys are
`none`; extra keys such as `order_type` and `time_in_force` are carried but
ignored by validation (pydantic default `extra` handling). -/
structure RawSignal where
  symbol : Option String
  action : Option String
  quantity : Option ℚ
  price : Option ℚ
  order_type : Option String
  time_in_force : Option String
  confidence : Option ℚ
  reason : Option String
deriving DecidableEq, Repr

/-- `StrategySignal` model from `app/models/trading.py`: only
`symbol`, `action`, `quantity`, `price` (plus optional `confidence`, `reason`).
The class declares no `order_type` or `time_in_force` field and no bound on
`quantity` or `price`. -/
structure StrategySignal where
  symbol : String
  action : Side
  quantity : ℚ
  price : ℚ
  confidence : Option ℚ
  reason : Option String
deriving DecidableEq, Repr

/-- Parses an `action` string against the `Side` literal. -/
def parseSide (s : String) : Option Side :=
  if s = "buy" then some .buy
  else if s = "sell" then some .sell
  else none

/-- `StrategySignal.model_validate` on a raw signal: requires `symbol`, an
`action` in the `Side` literal, and `quantity` and `price` coercible to
`Decimal`; any values for quantity and price are accepted and extra keys are
dropped. Returns `none` for a `ValidationError`. -/
def validateStrategySignal (raw : RawSignal) : Option StrategySignal :=
  match raw.symbol, raw.action, raw.quantity, raw.price with
  | some symbol, some action, some quantity, some price =>
    match parseSide action with
    | some side =>
      some { symbol := symbol
             action := side
             quantity := quantity
             price := price
             confidence := raw.confidence
             reason := raw.reason }
    | none => none
  | _, _, _, _ => none

/-- The attribute reads `signal.order_type` and `signal.time_in_force` at the
`TradeRequest` construction in `_execute_team_strategy`: the validated
`StrategySignal` object has no such fields, so the read raises an
`AttributeError` (pydantic models reject unknown attribute access). -/
def signalOrderTypeAttr (_ : StrategySignal) : Except String OrderType :=
  .error "AttributeError: StrategySignal object has no attribute order_type"

/-- One line of a tenant error log (`errors.jsonl` written by
`TradeExecutor.appendStrategyError`): the phase and the timeout flag recorded
by `_execute_team_strategy`. -/
structure ErrorEntry where
  team : String
  phase : String
  timeout : Bool
deriving DecidableEq, Repr

/-- Outcome of the isolation boundary around the tenant signal call
(`asyncio.wait_for(..., timeout=timeout_sec)` on `strat.generate_signal`):
the call returned a value, exceeded the timeout, or raised. -/
inductive SignalCallResult where
  | ok (raw : Option RawSignal)
  | timeout
  | raised (msg : String)
deriving DecidableEq, Repr

/-- The fixed per-call timeout bound `timeout_sec` in `_execute_team_strategy`. -/
def timeout_sec : ℕ := 5

/-- `QTCAlphaOrchestrator._execute_team_strategy` after the strategy is loaded:
the signal call outcome is consumed behind the isolation boundary.  A timeout
or a raise is caught, appended to the tenant error log with phase
`signal_generation`, and treated as no signal.  A returned signal is validated;
a `ValidationError` is caught and logged with phase `signal_validation`.  A
validated signal flows into the `TradeRequest` construction, which reads the
missing `order_type` attribute; the resulting `AttributeError` is not caught
inside this function and escapes it (`Except.error`). -/
def executeTeamStrategy (team : String) (st : ExecState)
    (errors : List ErrorEntry) (res : SignalCallResult)
    (symbolTrading : Bool) (broker : BrokerEnv) (now : ℕ) :
    Except String (ExecState × List ErrorEntry) :=
  match res with
  | .timeout =>
    .ok (st, errors ++ [{ team := team, phase := "signal_generation", timeout := true }])
  | .raised _ =>
    .ok (st, errors ++ [{ team := team, phase := "signal_generation", timeout := false }])
  | .ok none => .ok (st, errors)
  | .ok (some raw) =>
    match validateStrategySignal raw with
    | none =>
      .ok (st, errors ++ [{ team := team, phase := "signal_validation", timeout := false }])
    | some sig =>
      match signalOrderTypeAttr sig with
      | .error e => .error e
      | .ok orderType =>
        let req : TradeRequest :=
          { team_id := team
            symbol := sig.symbol
            side := sig.action
            quantity := sig.quantity
            price := sig.price
            order_type := orderType
            time_in_force := "day" }
        .ok ((execute team st req symbolTrading broker now).1, errors)

/-- Per-tenant orchestrator state inside `_process_market_data`: the team name,
its `run_24_7` parameter, its execution state and its error log. -/
structure TeamSt where
  name : String
  run_24_7 : Bool
  exec : ExecState
  errors : List ErrorEntry
deriving DecidableEq, Repr

/-- The active test of `_process_market_data`:
`should_run = (params run_24_7 or QTC_RUN_24_7 env) or market_open_now`. -/
def shouldRun (t : TeamSt) (marketOpenNow env247 : Bool) : Bool :=
  (t.run_24_7 || env247) || marketOpenNow

/-- The pre-trade snapshot loop body of `_process_market_data`: one
`PortfolioSnapshot` is appended for the team, using whatever prices are known;
the bar batch only influences the prices, never whether the append happens. -/
def preTradeSnapshot (_bars : List (String × ℚ)) (t : TeamSt) : TeamSt :=
  { t with exec := { t.exec with snaps := t.exec.snaps + 1 } }

/-- One tenant within one tick of `_process_market_data`: first the
unconditional pre-trade snapshot, then, only when the active test holds, the
strategy dispatch through `_execute_team_strategy`; an exception escaping the
dispatched task is swallowed by `asyncio.gather(..., return_exceptions=True)`
and only logged.  Returns the team state after the tick and whether the
strategy was dispatched. -/
def tickTeam (marketOpenNow env247 : Bool) (bars : List (String × ℚ))
    (res : SignalCallResult) (symbolTrading : Bool) (broker : BrokerEnv)
    (now : ℕ) (t : TeamSt) : TeamSt × Bool :=
  let t₁ := preTradeSnapshot bars t
  if shouldRun t marketOpenNow env247 then
    match executeTeamStrategy t.name t₁.exec t₁.errors res symbolTrading broker now with
    | .ok (exec, errors) => ({ t₁ with exec := exec, errors := errors }, true)
    | .error _ => (t₁, true)
  else
    (t₁, false)

/-- The per-tick fan-out over all registered tenants, with `resOf` giving each
tenant signal-call outcome. -/
def processTick (marketOpenNow env247 : Bool) (bars : List (String × ℚ))
    (resOf : String → SignalCallResult) (symbolTrading : Bool)
    (broker : BrokerEnv) (now : ℕ) (teams : List TeamSt) : List (TeamSt × Bool) :=
  teams.map fun t => tickTeam marketOpenNow env247 bars (resOf t.name) symbolTrading broker now t

/-- Projections of the AST nodes that `_scan_file` inspects while walking a
parsed source file: the root module of an `Import`/`ImportFrom`, a call whose
function is a bare name, a call through an attribute, and everything else. -/
inductive PyNode where
  | importRoot (root : String)
  | callName (fn : String)
  | callAttr (obj fn : String)
  | other
deriving DecidableEq, Repr

/-- A source file of a tenant code unit, as the scanner sees it. -/
structure PyFile where
  name : String
  parses : Bool
  nodes : List PyNode
deriving DecidableEq, Repr

/-- `BLACKLISTED_IMPORTS` from `app/loaders/static_check.py`. -/
def BLACKLISTED_IMPORTS : List String :=
  ["os", "subprocess", "multiprocessing",
   "importlib", "pkgutil", "runpy", "code", "codeop",
   "shutil", "tempfile", "pathlib", "glob", "fnmatch",
   "socket", "urllib", "urllib3", "requests", "http", "ftplib", "smtplib",
   "poplib", "imaplib", "telnetlib", "socketserver",
   "pickle", "shelve", "marshal", "dill",
   "sys", "ctypes", "cffi", "platform", "pwd", "grp", "resource",
   "ast", "compile", "dis", "inspect",
   "sqlite3", "dbm",
   "boto3", "botocore", "azure", "google", "kubernetes", "docker",
   "selenium", "scrapy",
   "tkinter", "pygame",
   "webbrowser", "xmlrpc", "pty", "tty", "readline", "rlcompleter",
   "pdb", "trace", "traceback", "warnings", "logging", "builtins", "gc",
   "weakref"]

/-- The dangerous bare-name builtins rejected by `_scan_file`. -/
def bannedBuiltins : List String := ["open", "exec", "eval", "__import__"]

/-- `_scan_file`: raises on a syntax error, on an import whose root module is in
the blacklist, and on a call of a bare name among `open`, `exec`, `eval`,
`__import__`.  Calls through attributes and every other node pass.  `true`
means the file passes the scan. -/
def scanFileOk (blacklist : List String) (f : PyFile) : Bool :=
  f.parses &&
    f.nodes.all fun n =>
      match n with
      | .importRoot r => !(blacklist.contains r)
      | .callName fn => !(bannedBuiltins.contains fn)
      | .callAttr _ _ => true
      | .other => true

/-- The entry file derived from an entry point `module:ClassName` in
`ast_sanity_check`: the module name is the text before the first colon (the
head of `entry_point.split(":")`), suffixed with `.py`. -/
def entryFileName (entryPoint : String) : String :=
  String.mk (entryPoint.toList.takeWhile (fun c => !(c = ':'))) ++ ".py"

/-- `ast_sanity_check`: with an entry point, only the entry file is scanned
(missing entry file raises); without one, every `*.py` file of the unit is
scanned.  `true` means the unit is accepted. -/
def ast_sanity_check (repo : List PyFile) (entryPoint : Option String) : Bool :=
  match entryPoint with
  | some ep =>
    match repo.find? (fun f => f.name = entryFileName ep) with
    | none => false
    | some f => scanFileOk BLACKLISTED_IMPORTS f
  | none => repo.all (scanFileOk BLACKLISTED_IMPORTS)

/-- `git_fetch._fetch_one` before activation: it narrows the check to the
declared entry-point module only, and quarantines the unit when the check
raises. -/
def fetchOneAccepts (repo : List PyFile) (entryPoint : String) : Bool :=
  ast_sanity_check repo (some entryPoint)

/-- One line of a day JSONL portfolio log as `foldDailyPortfolio` reads it:
blank lines and unparseable lines are skipped; a parseable line is a snapshot
row keyed by its timestamp. -/
inductive JLine where
  | blank
  | corrupt
  | row (ts : ℕ) (payload : String)
deriving DecidableEq, Repr

/-- The on-disk state that `foldDailyPortfolio` touches: the day raw JSONL log
(`none` when absent) and the consolidated Parquet store (`none` when absent). -/
structure FoldState where
  jsonl : Option (List JLine)
  parquet : Option (List (ℕ × String))
deriving DecidableEq, Repr

/-- The row-reading loop of `foldDailyPortfolio`: blank and unparseable lines
are skipped. -/
def parseRows (lines : List JLine) : List (ℕ × String) :=
  lines.filterMap fun l =>
    match l with
    | .row ts payload => some (ts, payload)
    | _ => none

/-- Insertion into a timestamp-sorted row list, keeping insertion order among
equal timestamps. -/
def sortInsertRow (r : ℕ × String) (rs : List (ℕ × String)) : List (ℕ × String) :=
  match rs with
  | [] => [r]
  | s :: rest => if s.1 ≤ r.1 then s :: sortInsertRow r rest else r :: s :: rest

/-- `df.sort_values("timestamp")`. -/
def sortRows (rs : List (ℕ × String)) : List (ℕ × String) :=
  match rs with
  | [] => []
  | r :: rest => sortInsertRow r (sortRows rest)

/-- `drop_duplicates(subset=["timestamp"], keep="last")`: keeps the final
occurrence of each timestamp, preserving order. -/
def dedupKeepLast (rs : List (ℕ × String)) : List (ℕ × String) :=
  match rs with
  | [] => []
  | r :: rest => if rest.any (fun s => s.1 = r.1) then dedupKeepLast rest
                 else r :: dedupKeepLast rest

/-- The `df_all` concatenation in `foldDailyPortfolio`: the existing store rows
followed by the new rows; a store read failure falls back to the new rows
alone. -/
def dfAllRows (old : Option (List (ℕ × String))) (readOldOk : Bool)
    (new : List (ℕ × String)) : List (ℕ × String) :=
  match old with
  | some oldRows => if readOldOk then oldRows ++ new else new
  | none => new

/-- `TradeExecutor.foldDailyPortfolio` for one team and day.  A missing log is a
no-op.  A log with no parseable rows is deleted and nothing is written.
Otherwise the rows are concatenated onto the existing store (a store read
failure falls back to the new rows alone), sorted by timestamp, deduplicated
keeping the last row per timestamp, and written; the raw log is deleted after
the write.  `readOldOk` models whether `pd.read_parquet` succeeds and `writeOk`
whether `to_parquet` succeeds; a write failure raises out of the function
before the deletion. -/
def foldDailyPortfolio (st : FoldState) (readOldOk writeOk : Bool) : FoldState :=
  match st.jsonl with
  | none => st
  | some lines =>
    let rows := parseRows lines
    if rows.isEmpty then
      { st with jsonl := none }
    else
      let merged := dedupKeepLast (sortRows (dfAllRows st.parquet readOldOk rows))
      if writeOk then
        { jsonl := none, parquet := some merged }
      else
        st

/-- Tenant "alpha" of the spec scenario: cash 10000, no positions. -/
def alphaPortfolio : Portfolio := { freeCash := 10000, positions := [] }

/-- The alpha portfolio after buying 10 AAPL at 100. -/
def alphaAfterFirstBuy : Portfolio := update_portfolio alphaPortfolio "AAPL" .buy 10 100

/-- The alpha portfolio after further buying 10 AAPL at 200. -/
def alphaAfterSecondBuy : Portfolio := update_portfolio alphaAfterFirstBuy "AAPL" .buy 10 200

/-- Fresh execution state for tenant alpha: empty pending index and logs. -/
def alphaState : ExecState :=
  { portfolio := alphaPortfolio, pending := [], trades := [], snaps := 0 }

/-- A limit buy request: 10 AAPL at 150, day time in force. -/
def limitBuyReq : TradeRequest :=
  { team_id := "alpha", symbol := "AAPL", side := .buy, quantity := 10, price := 150,
    order_type := .limit, time_in_force := "day" }

/-- A market buy request: 10 AAPL at 150. -/
def marketBuyReq : TradeRequest :=
  { team_id := "alpha", symbol := "AAPL", side := .buy, quantity := 10, price := 150,
    order_type := .market, time_in_force := "day" }

/-- Execution state holding one pending limit order, as left by a successful
broker submission of `limitBuyReq` under order id "brk-1". -/
def alphaStateWithPending : ExecState :=
  { portfolio := alphaPortfolio
    pending := [("brk-1", mkPendingOrder "brk-1" limitBuyReq 0)]
    trades := []
    snaps := 0 }

/-- Broker payload reporting a complete fill of 10 shares at 150. -/
def fillPayload : StatusData :=
  { status := some "filled", filled_qty := some 10, filled_avg_price := some 150 }

/-- A raw signal violating the spec schema: quantity -5, price 0, and no
order_type or time_in_force keys. -/
def badRawSignal : RawSignal :=
  { symbol := some "AAPL", action := some "buy", quantity := some (-5), price := some 0,
    order_type := none, time_in_force := none, confidence := none, reason := none }

/-- A raw signal conforming to the spec schema: buy 10 at 150, limit, day. -/
def conformantRawSignal : RawSignal :=
  { symbol := some "AAPL", action := some "buy", quantity := some 10, price := some 150,
    order_type := some "limit", time_in_force := some "day", confidence := none,
    reason := none }

/-- An entry-point file that imports `io` (outside any numeric allow-list) and
calls the file primitive `io.open` through an attribute. -/
def cexEntryFile : PyFile :=
  { name := "strategy.py", parses := true,
    nodes := [.importRoot "io", .callAttr "io" "open", .importRoot "numpy"] }

/-- A non-entry source file of the same unit that imports `os` and calls the
dynamic-execution primitive `exec` by name. -/
def cexHelperFile : PyFile :=
  { name := "helper.py", parses := true,
    nodes := [.importRoot "os", .callName "exec"] }

/-- A two-file tenant code unit built from the two files above. -/
def cexRepo : List PyFile := [cexEntryFile, cexHelperFile]

/-- A day log whose only line is unparseable, next to an absent store. -/
def corruptOnlyFold : FoldState := { jsonl := some [JLine.corrupt], parquet := none }

/-- A day log holding one parseable snapshot row, next to an absent store. -/
def oneRowFold : FoldState := { jsonl := some [JLine.row 1 "snap"], parquet := none }

/-- Tenant alpha as the orchestrator sees it, not flagged `run_24_7`. -/
def alphaTeam : TeamSt :=
  { name := "alpha", run_24_7 := false, exec := alphaState, errors := [] }

/-- The `Position` invariants of the data-model table: `costBasis == quantity*avgCost`
and no negative quantity. -/
def PosWF (pos : Position) : Prop :=
  pos.costBasis = pos.quantity * pos.avgCost ∧ 0 ≤ pos.quantity

/-- A portfolio whose stored positions all satisfy the `Position` invariants. -/
def PortWF (port : Portfolio) : Prop :=
  ∀ kp ∈ port.positions, PosWF kp.2

theorem alookup_ainsert_self {α : Type} (m : List (String × α)) (k : String) (v : α) :
    alookup (ainsert m k v) k = some v := by
  induction m with
  | nil => simp [ainsert, alookup]
  | cons hd tl ih =>
    obtain ⟨k₁, v₁⟩ := hd
    by_cases h : k₁ = k
    · simp [ainsert, alookup, h]
    · simp [ainsert, alookup, h, ih]

theorem alookup_aerase_self {α : Type} (m : List (String × α)) (k : String) :
    alookup (aerase m k) k = none := by
  induction m with
  | nil => simp [aerase, alookup]
  | cons hd tl ih =>
    obtain ⟨k₁, v₁⟩ := hd
    by_cases h : k₁ = k
    · simp [aerase, h, ih]
    · simp [aerase, alookup, h, ih]

theorem mem_of_mem_ainsert {α : Type} {kp : String × α}
    {m : List (String × α)} {k : String} {v : α} (h : kp ∈ ainsert m k v) :
    kp = (k, v) ∨ kp ∈ m := by
  induction m with
  | nil => simp [ainsert] at h; exact Or.inl (by simp [h])
  | cons hd tl ih =>
    obtain ⟨k₁, v₁⟩ := hd
    by_cases hk : k₁ = k
    · simp only [ainsert, hk, if_pos rfl] at h
      rcases List.mem_cons.mp h with h | h
      · exact Or.inl h
      · exact Or.inr (List.mem_cons_of_mem _ h)
    · simp only [ainsert, hk, if_neg hk] at h
      rcases List.mem_cons.mp h with h | h
      · exact Or.inr (h ▸ List.mem_cons_self _ _)
      · rcases ih h with h | h
        · exact Or.inl h
        · exact Or.inr (List.mem_cons_of_mem _ h)

theorem mem_of_mem_aerase {α : Type} {kp : String × α}
    {m : List (String × α)} {k : String} (h : kp ∈ aerase m k) : kp ∈ m := by
  induction m with
  | nil => simp [aerase] at h
  | cons hd tl ih =>
    obtain ⟨k₁, v₁⟩ := hd
    by_cases hk : k₁ = k
    · simp only [aerase, hk, if_pos rfl] at h
      exact List.mem_cons_of_mem _ (ih h)
    · simp only [aerase, hk, if_neg hk] at h
      rcases List.mem_cons.mp h with h | h
      · exact h ▸ List.mem_cons_self _ _
      · exact List.mem_cons_of_mem _ (ih h)

theorem mem_of_alookup_eq_some {α : Type} {m : List (String × α)}
    {k : String} {v : α} (h : alookup m k = some v) : (k, v) ∈ m := by
  induction m with
  | nil => simp [alookup] at h
  | cons hd tl ih =>
    obtain ⟨k₁, v₁⟩ := hd
    by_cases hk : k₁ = k
    · subst hk
      simp [alookup] at h
      subst h
      exact List.mem_cons_self _ _
    · simp only [alookup, hk, if_neg hk] at h
      exact List.mem_cons_of_mem _ (ih h)

theorem validate_trade_buy_iff (port : Portfolio) (sym : String) (q p : ℚ) :
    validate_trade port sym .buy q p = true ↔ q * p ≤ port.freeCash := by
  simp [validate_trade, not_lt]

theorem validate_trade_sell_iff (port : Portfolio) (sym : String) (q p : ℚ) :
    validate_trade port sym .sell q p = true ↔
      ∃ pos, alookup port.positions sym = some pos ∧ q ≤ pos.quantity := by
  unfold validate_trade
  cases h : alookup port.positions sym with
  | none => simp [h]
  | some pos => simp [h, not_lt]

theorem execute_noBroker_of_valid (team : String) (st : ExecState) (req : TradeRequest)
    (now : ℕ)
    (h : validate_trade st.portfolio req.symbol req.side req.quantity req.price = true) :
    execute team st req true BrokerEnv.noBroker now =
      applyAndRecord team st req none req.price now := by
  cases req with
  | mk tid sym side q p ot tif =>
    cases ot <;> simp [execute, h, calculate_execution_price] at *

theorem execute_noBroker_of_invalid (team : String) (st : ExecState) (req : TradeRequest)
    (now : ℕ)
    (h : validate_trade st.portfolio req.symbol req.side req.quantity req.price = false) :
    execute team st req true BrokerEnv.noBroker now =
      (st, false, "Trade validation failed") := by
  simp [execute, h]

theorem execute_any_of_invalid (team : String) (st : ExecState) (req : TradeRequest)
    (now : ℕ) (broker : BrokerEnv)
    (h : validate_trade st.portfolio req.symbol req.side req.quantity req.price = false) :
    execute team st req true broker now = (st, false, "Trade validation failed") := by
  simp [execute, h]

theorem execute_submitRaises_of_valid (team : String) (st : ExecState) (req : TradeRequest)
    (now : ℕ)
    (h : validate_trade st.portfolio req.symbol req.side req.quantity req.price = true) :
    execute team st req true BrokerEnv.submitRaises now =
      applyAndRecord team st req none req.price now := by
  cases req with
  | mk tid sym side q p ot tif =>
    cases ot <;> simp [execute, h, calculate_execution_price] at *

theorem execute_ok_market_some (team : String) (st : ExecState) (req : TradeRequest)
    (oid : String) (fp : ℚ) (now : ℕ)
    (hot : req.order_type = OrderType.market)
    (h : validate_trade st.portfolio req.symbol req.side req.quantity req.price = true) :
    execute team st req true (BrokerEnv.ok oid (some fp)) now =
      applyAndRecord team st req (some oid) fp now := by
  cases req with
  | mk tid sym side q p ot tif =>
    simp only at hot
    subst hot
    simp [execute, h]

theorem execute_ok_market_none (team : String) (st : ExecState) (req : TradeRequest)
    (oid : String) (now : ℕ)
    (hot : req.order_type = OrderType.market)
    (h : validate_trade st.portfolio req.symbol req.side req.quantity req.price = true) :
    execute team st req true (BrokerEnv.ok oid none) now =
      applyAndRecord team st req (some oid) req.price now := by
  cases req with
  | mk tid sym side q p ot tif =>
    simp only at hot
    subst hot
    simp [execute, h, calculate_execution_price]

theorem update_portfolio_buy_freeCash (port : Portfolio) (sym : String) (q p : ℚ) :
    (update_portfolio port sym .buy q p).freeCash = port.freeCash - q * p := by
  simp [update_portfolio]

theorem update_portfolio_sell_freeCash (port : Portfolio) (sym : String) (q p : ℚ) :
    (update_portfolio port sym .sell q p).freeCash = port.freeCash + q * p := by
  simp [update_portfolio]

theorem update_portfolio_sell_all (port : Portfolio) (sym : String) (q p : ℚ)
    (pos : Position) (h : alookup port.positions sym = some pos)
    (hq : pos.quantity = q) :
    alookup (update_portfolio port sym .sell q p).positions sym = none := by
  simp only [update_portfolio, h, hq, sub_self]
  rw [if_pos le_rfl]
  exact alookup_aerase_self port.positions sym

/-- C4 counterexample: broker-routed trades break the exact cash-delta clause.
Alpha buys 10 AAPL requesting 150 with 10000 cash; the broker market order
fills at 151, the trade succeeds, and cash becomes 8490 — not the
`cash - quantity * price = 8500` the claim demands.  Moreover a broker-routed
limit buy is accepted with no cash change at all at submission. -/
theorem broker_market_fill_moves_cash_by_fill_price :
    (execute "alpha" alphaState marketBuyReq true (BrokerEnv.ok "brk-1" (some 151)) 0).2.1
      = true
    ∧ (execute "alpha" alphaState marketBuyReq true
        (BrokerEnv.ok "brk-1" (some 151)) 0).1.portfolio.freeCash = 8490
    ∧ alphaState.portfolio.freeCash - marketBuyReq.quantity * marketBuyReq.price = 8500
    ∧ (execute "alpha" alphaState limitBuyReq true (BrokerEnv.ok "brk-2" none) 0).2.1
      = true
    ∧ (execute "alpha" alphaState limitBuyReq true
        (BrokerEnv.ok "brk-2" none) 0).1.portfolio.freeCash = 10000 := by
  norm_num [execute, alphaState, alphaPortfolio, marketBuyReq, limitBuyReq,
    validate_trade, applyAndRecord, calculate_execution_price, update_portfolio,
    alookup, ainsert, Position.fromTrade]

/-- C4 (amended): under any broker environment, an accepted BUY requires free
cash of at least `quantity * price` at the requested price (validation always
uses the requested price); on success cash decreases by exactly
`quantity * executionPrice`, where the execution price is the requested price
whenever the order is applied locally — no broker, a submission that raises,
or a market order without a reported fill — and the broker-reported fill price
for a broker market order with one, while a broker-routed limit order is
accepted with no portfolio change at submission.  An accepted SELL requires an
existing position holding at least the requested quantity; on local execution
cash increases by exactly `quantity * price` and selling the full held
quantity removes the position entirely. -/
theorem trade_validation_and_cash_effects
    (team : String) (st : ExecState) (req : TradeRequest) (now : ℕ) :
    (∀ broker : BrokerEnv, (execute team st req true broker now).2.1 = true →
      validate_trade st.portfolio req.symbol req.side req.quantity req.price = true)
  ∧ (req.side = Side.buy →
      (∀ broker : BrokerEnv, (execute team st req true broker now).2.1 = true →
        req.quantity * req.price ≤ st.portfolio.freeCash)
      ∧ (((execute team st req true BrokerEnv.noBroker now).2.1 = true) ↔
          req.quantity * req.price ≤ st.portfolio.freeCash)
      ∧ ((execute team st req true BrokerEnv.noBroker now).2.1 = true →
          (execute team st req true BrokerEnv.noBroker now).1.portfolio.freeCash =
            st.portfolio.freeCash - req.quantity * req.price)
      ∧ ((execute team st req true BrokerEnv.submitRaises now).2.1 = true →
          (execute team st req true BrokerEnv.submitRaises now).1.portfolio.freeCash =
            st.portfolio.freeCash - req.quantity * req.price)
      ∧ (∀ (oid : String) (fp : ℚ), req.order_type = OrderType.market →
          validate_trade st.portfolio req.symbol req.side req.quantity req.price = true →
          (execute team st req true (BrokerEnv.ok oid (some fp)) now).2.1 = true
          ∧ (execute team st req true (BrokerEnv.ok oid (some fp)) now).1.portfolio.freeCash =
              st.portfolio.freeCash - req.quantity * fp)
      ∧ (∀ oid : String, req.order_type = OrderType.market →
          validate_trade st.portfolio req.symbol req.side req.quantity req.price = true →
          (execute team st req true (BrokerEnv.ok oid none) now).2.1 = true
          ∧ (execute team st req true (BrokerEnv.ok oid none) now).1.portfolio.freeCash =
              st.portfolio.freeCash - req.quantity * req.price)
      ∧ (∀ (oid : String) (fill : Option ℚ), req.order_type = OrderType.limit →
          validate_trade st.portfolio req.symbol req.side req.quantity req.price = true →
          (execute team st req true (BrokerEnv.ok oid fill) now).2.1 = true
          ∧ (execute team st req true (BrokerEnv.ok oid fill) now).1.portfolio =
              st.portfolio))
  ∧ (req.side = Side.sell →
      (∀ broker : BrokerEnv, (execute team st req true broker now).2.1 = true →
        ∃ pos, alookup st.portfolio.positions req.symbol = some pos ∧
          req.quantity ≤ pos.quantity)
      ∧ (((execute team st req true BrokerEnv.noBroker now).2.1 = true) ↔
          ∃ pos, alookup st.portfolio.positions req.symbol = some pos ∧
            req.quantity ≤ pos.quantity)
      ∧ ((execute team st req true BrokerEnv.noBroker now).2.1 = true →
          (execute team st req true BrokerEnv.noBroker now).1.portfolio.freeCash =
            st.portfolio.freeCash + req.quantity * req.price)
      ∧ (∀ pos, alookup st.portfolio.positions req.symbol = some pos →
          pos.quantity = req.quantity →
          alookup (execute team st req true BrokerEnv.noBroker now).1.portfolio.positions
            req.symbol = none)) := by
  obtain ⟨tid, sym, side, q, p, ot, tif⟩ := req
  refine ⟨?_, ?_, ?_⟩
  · intro broker hsucc
    cases hval : validate_trade st.portfolio sym side q p with
    | true => rfl
    | false =>
      rw [execute_any_of_invalid _ _ _ _ broker hval] at hsucc
      simp at hsucc
  · rintro rfl
    have hbi := validate_trade_buy_iff st.portfolio sym q p
    refine ⟨?_, ?_, ?_, ?_, ?_, ?_, ?_⟩
    · intro broker hsucc
      cases hval : validate_trade st.portfolio sym .buy q p with
      | true =>
        rw [hval] at hbi
        simpa using hbi
      | false =>
        rw [execute_any_of_invalid _ _ _ _ broker hval] at hsucc
        simp at hsucc
    · cases hval : validate_trade st.portfolio sym .buy q p with
      | false =>
        rw [execute_noBroker_of_invalid _ _ _ _ hval]
        rw [hval] at hbi
        simp at hbi
        simp [hbi]
      | true =>
        rw [execute_noBroker_of_valid _ _ _ _ hval]
        rw [hval] at hbi
        simp at hbi
        simp [applyAndRecord, hbi]
    · cases hval : validate_trade st.portfolio sym .buy q p with
      | false =>
        rw [execute_noBroker_of_invalid _ _ _ _ hval]
        simp
      | true =>
        rw [execute_noBroker_of_valid _ _ _ _ hval]
        intro _
        simp [applyAndRecord, update_portfolio_buy_freeCash]
    · cases hval : validate_trade st.portfolio sym .buy q p with
      | false =>
        rw [execute_any_of_invalid _ _ _ _ BrokerEnv.submitRaises hval]
        simp
      | true =>
        rw [execute_submitRaises_of_valid _ _ _ _ hval]
        intro _
        simp [applyAndRecord, update_portfolio_buy_freeCash]
    · intro oid fp hot hval
      rw [execute_ok_market_some _ _ _ _ _ _ hot hval]
      exact ⟨rfl, by simp [applyAndRecord, update_portfolio_buy_freeCash]⟩
    · intro oid hot hval
      rw [execute_ok_market_none _ _ _ _ _ hot hval]
      exact ⟨rfl, by simp [applyAndRecord, update_portfolio_buy_freeCash]⟩
    · intro oid fill hot hval
      simp only at hot
      subst hot
      simp [execute, hval]
  · rintro rfl
    have hsi := validate_trade_sell_iff st.portfolio sym q p
    refine ⟨?_, ?_, ?_, ?_⟩
    · intro broker hsucc
      cases hval : validate_trade st.portfolio sym .sell q p with
      | true =>
        rw [hval] at hsi
        simpa using hsi
      | false =>
        rw [execute_any_of_invalid _ _ _ _ broker hval] at hsucc
        simp at hsucc
    · cases hval : validate_trade st.portfolio sym .sell q p with
      | false =>
        rw [execute_noBroker_of_invalid _ _ _ _ hval]
        rw [hval] at hsi
        simp at hsi
        simp
        exact hsi
      | true =>
        rw [execute_noBroker_of_valid _ _ _ _ hval]
        rw [hval] at hsi
        simp at hsi
        simp [applyAndRecord, hsi]
    · cases hval : validate_trade st.portfolio sym .sell q p with
      | false =>
        rw [execute_noBroker_of_invalid _ _ _ _ hval]
        simp
      | true =>
        rw [execute_noBroker_of_valid _ _ _ _ hval]
        intro _
        simp [applyAndRecord, update_portfolio_sell_freeCash]
    · intro pos hpos hq
      have hval : validate_trade st.portfolio sym .sell q p = true := by
        rw [validate_trade_sell_iff]
        exact ⟨pos, hpos, by rw [hq]⟩
      rw [execute_noBroker_of_valid _ _ _ _ hval]
      simp only [applyAndRecord]
      exact update_portfolio_sell_all st.portfolio sym q p pos hpos hq

/-- Witness for C4: alpha buys 10 AAPL requesting 150 from 10000 cash; through
a broker the market order fills at 151 and cash drops by 10 * 151, through a
broker limit submission nothing changes, and locally the trade succeeds with
cash dropping by 10 * 150. -/
theorem trade_validation_and_cash_effects_witness :
    (execute "alpha" alphaState marketBuyReq true (BrokerEnv.ok "brk-1" (some 151)) 0).2.1
      = true
    ∧ (execute "alpha" alphaState marketBuyReq true
        (BrokerEnv.ok "brk-1" (some 151)) 0).1.portfolio.freeCash =
        alphaState.portfolio.freeCash - marketBuyReq.quantity * 151
    ∧ (execute "alpha" alphaState limitBuyReq true
        (BrokerEnv.ok "brk-2" none) 0).1.portfolio = alphaState.portfolio
    ∧ (execute "alpha" alphaState marketBuyReq true BrokerEnv.noBroker 0).2.1 = true
    ∧ (execute "alpha" alphaState marketBuyReq true BrokerEnv.noBroker 0).1.portfolio.freeCash =
        alphaState.portfolio.freeCash - marketBuyReq.quantity * marketBuyReq.price := by
  have hm := (trade_validation_and_cash_effects "alpha" alphaState marketBuyReq 0).2.1 rfl
  have hl := (trade_validation_and_cash_effects "alpha" alphaState limitBuyReq 0).2.1 rfl
  have hvm : validate_trade alphaState.portfolio marketBuyReq.symbol marketBuyReq.side
      marketBuyReq.quantity marketBuyReq.price = true := by
    norm_num [alphaState, alphaPortfolio, marketBuyReq, validate_trade]
  have hvl : validate_trade alphaState.portfolio limitBuyReq.symbol limitBuyReq.side
      limitBuyReq.quantity limitBuyReq.price = true := by
    norm_num [alphaState, alphaPortfolio, limitBuyReq, validate_trade]
  have hfill := hm.2.2.2.2.1 "brk-1" 151 rfl hvm
  have hlim := hl.2.2.2.2.2.2 "brk-2" none rfl hvl
  have hsucc : (execute "alpha" alphaState marketBuyReq true BrokerEnv.noBroker 0).2.1
      = true :=
    hm.2.1.mpr (by norm_num [alphaState, alphaPortfolio, marketBuyReq])
  exact ⟨hfill.1, hfill.2, hlim.2, hsucc, hm.2.2.1 hsucc⟩

/-- C5: a buy into an existing position recomputes the average cost as
`(oldQty*oldAvgCost + tradeQty*tradePrice) / (oldQty + tradeQty)`; buying
10 at 100 then 10 at 200 on an empty position yields quantity 20, avgCost 150
and costBasis 3000; and every buy and sell mutation with positive trade
quantity preserves the invariant `costBasis == quantity * avgCost` with no
negative quantity. -/
theorem buy_average_cost_and_ledger_invariant :
    (∀ (port : Portfolio) (sym : String) (q p : ℚ) (existing : Position),
      alookup port.positions sym = some existing →
      alookup (update_portfolio port sym .buy q p).positions sym =
        some { symbol := sym
               quantity := existing.quantity + q
               side := .buy
               avgCost := (existing.quantity * existing.avgCost + q * p) /
                 (existing.quantity + q)
               costBasis := (existing.quantity + q) *
                 ((existing.quantity * existing.avgCost + q * p) /
                   (existing.quantity + q)) })
  ∧ (alookup alphaAfterSecondBuy.positions "AAPL" =
      some { symbol := "AAPL", quantity := 20, side := .buy, avgCost := 150,
             costBasis := 3000 }
     ∧ alphaAfterSecondBuy.freeCash = 7000)
  ∧ (∀ (port : Portfolio) (sym : String) (side : Side) (q p : ℚ),
      0 < q → PortWF port → PortWF (update_portfolio port sym side q p)) := by
  refine ⟨?_, ⟨?_, ?_⟩, ?_⟩
  · intro port sym q p existing h
    simp only [update_portfolio, h]
    exact alookup_ainsert_self _ _ _
  · norm_num [alphaAfterSecondBuy, alphaAfterFirstBuy, alphaPortfolio, update_portfolio,
      alookup, ainsert, Position.fromTrade]
  · norm_num [alphaAfterSecondBuy, alphaAfterFirstBuy, alphaPortfolio, update_portfolio,
      alookup, ainsert, Position.fromTrade]
  · intro port sym side q p hq hwf
    cases side with
    | buy =>
      cases h : alookup port.positions sym with
      | some existing =>
        intro kp hkp
        simp only [update_portfolio, h] at hkp
        rcases mem_of_mem_ainsert hkp with rfl | hkp
        · refine ⟨rfl, ?_⟩
          have hex := (hwf _ (mem_of_alookup_eq_some h)).2
          simp only
          linarith
        · exact hwf _ hkp
      | none =>
        intro kp hkp
        simp only [update_portfolio, h] at hkp
        rcases mem_of_mem_ainsert hkp with rfl | hkp
        · refine ⟨?_, ?_⟩
          · simp [Position.fromTrade, abs_of_pos hq]
          · simp [Position.fromTrade]
            exact hq.le
        · exact hwf _ hkp
    | sell =>
      cases h : alookup port.positions sym with
      | some existing =>
        intro kp hkp
        simp only [update_portfolio, h] at hkp
        by_cases hle : existing.quantity - q ≤ 0
        · rw [if_pos hle] at hkp
          exact hwf _ (mem_of_mem_aerase hkp)
        · rw [if_neg hle] at hkp
          rcases mem_of_mem_ainsert hkp with rfl | hkp
          · refine ⟨rfl, ?_⟩
            simp only
            linarith [not_le.mp hle]
          · exact hwf _ hkp
      | none =>
        intro kp hkp
        simp only [update_portfolio, h] at hkp
        exact hwf _ hkp

/-- Witness for C5: the fresh alpha portfolio satisfies the invariant after a
buy, and the second buy of the spec example lands on the weighted-average
position. -/
theorem buy_average_cost_and_ledger_invariant_witness :
    PortWF (update_portfolio alphaPortfolio "AAPL" Side.buy 10 100) ∧
    alookup (update_portfolio alphaAfterFirstBuy "AAPL" Side.buy 10 200).positions "AAPL" =
      some { symbol := "AAPL", quantity := 10 + 10, side := .buy,
             avgCost := (10 * 100 + 10 * 200) / (10 + 10),
             costBasis := (10 + 10) * ((10 * 100 + 10 * 200) / (10 + 10)) } := by
  constructor
  · exact buy_average_cost_and_ledger_invariant.2.2 alphaPortfolio "AAPL" Side.buy 10 100
      (by norm_num) (by intro kp hkp; simp [alphaPortfolio] at hkp)
  · have hx : alookup alphaAfterFirstBuy.positions "AAPL" =
        some { symbol := "AAPL", quantity := 10, side := .buy, avgCost := 100,
               costBasis := 1000 } := by
      norm_num [alphaAfterFirstBuy, alphaPortfolio, update_portfolio, alookup, ainsert,
        Position.fromTrade]
    have h := buy_average_cost_and_ledger_invariant.1 alphaAfterFirstBuy "AAPL" 10 200 _ hx
    exact h

/-- C1 counterexample: with no broker configured, the limit order `limitBuyReq`
is accepted by `execute` (it returns success) yet the portfolio IS mutated at
submission: cash drops from 10000 to 8500 and a TradeRecord is appended
immediately, before any fill. -/
theorem limit_order_local_path_mutates_portfolio :
    (execute "alpha" alphaState limitBuyReq true BrokerEnv.noBroker 0).2.1 = true ∧
    alphaState.portfolio.freeCash = 10000 ∧
    (execute "alpha" alphaState limitBuyReq true BrokerEnv.noBroker 0).1.portfolio.freeCash
      = 8500 ∧
    (execute "alpha" alphaState limitBuyReq true BrokerEnv.noBroker 0).1.trades.length
      = 1 := by
  norm_num [execute, alphaState, alphaPortfolio, limitBuyReq, validate_trade,
    applyAndRecord, calculate_execution_price, update_portfolio, alookup, ainsert,
    Position.fromTrade]

/-- C1 (amended): a limit order accepted by `execute` after a successful broker
submission leaves the portfolio, the trade log and the snapshot count untouched
at submission and stores exactly one PendingOrder in the pending index; when a
status update lands the order on "filled" with a known nonzero fill price,
exactly one TradeRecord is appended and the order is removed from the index,
while the portfolio is untouched; any other status update appends no record and
keeps the order indexed. -/
theorem limit_order_submission_and_fill_lifecycle :
    (∀ (team : String) (st : ExecState) (req : TradeRequest) (oid : String)
        (fill : Option ℚ) (now : ℕ),
      req.order_type = OrderType.limit →
      validate_trade st.portfolio req.symbol req.side req.quantity req.price = true →
      execute team st req true (BrokerEnv.ok oid fill) now =
        ({ st with pending := ainsert st.pending oid (mkPendingOrder oid req now) },
         true, "Limit order placed"))
  ∧ (∀ (st : ExecState) (oid : String) (sd : StatusData) (now : ℕ)
        (order : PendingOrder),
      alookup st.pending oid = some order →
      (update_order_status st oid sd now).2 = some (applyStatusData order sd now)
      ∧ (update_order_status st oid sd now).1.portfolio = st.portfolio
      ∧ (filledWithPrice (applyStatusData order sd now) = true →
          (update_order_status st oid sd now).1.trades =
            st.trades ++ [tradeRecordFromOrder (applyStatusData order sd now)]
          ∧ alookup (update_order_status st oid sd now).1.pending oid = none)
      ∧ (filledWithPrice (applyStatusData order sd now) = false →
          (update_order_status st oid sd now).1.trades = st.trades
          ∧ alookup (update_order_status st oid sd now).1.pending oid =
              some (applyStatusData order sd now))) := by
  constructor
  · intro team st req oid fill now hot hval
    obtain ⟨tid, sym, side, q, p, ot, tif⟩ := req
    simp only at hot
    subst hot
    simp [execute, hval]
  · intro st oid sd now order h
    simp only [update_order_status, h]
    by_cases hf : filledWithPrice (applyStatusData order sd now)
    · rw [if_pos hf]
      refine ⟨rfl, rfl, fun _ => ⟨rfl, alookup_aerase_self _ _⟩, fun hc => ?_⟩
      rw [hf] at hc
      exact absurd hc (by simp)
    · rw [if_neg hf]
      refine ⟨rfl, rfl, fun hc => ?_, fun _ => ⟨rfl, alookup_ainsert_self _ _ _⟩⟩
      exact absurd hc hf

/-- Witness for C1: submitting `limitBuyReq` through a live broker stores the
pending order without touching the ledger, and the later complete fill at 150
appends exactly one TradeRecord and clears the index entry. -/
theorem limit_order_submission_and_fill_lifecycle_witness :
    (execute "alpha" alphaState limitBuyReq true (BrokerEnv.ok "brk-1" none) 0 =
      ({ alphaState with
          pending := ainsert alphaState.pending "brk-1" (mkPendingOrder "brk-1" limitBuyReq 0) },
       true, "Limit order placed"))
    ∧ (update_order_status alphaStateWithPending "brk-1" fillPayload 5).1.trades =
        alphaStateWithPending.trades ++
          [tradeRecordFromOrder
            (applyStatusData (mkPendingOrder "brk-1" limitBuyReq 0) fillPayload 5)]
    ∧ alookup (update_order_status alphaStateWithPending "brk-1" fillPayload 5).1.pending
        "brk-1" = none := by
  have h1 := limit_order_submission_and_fill_lifecycle.1 "alpha" alphaState limitBuyReq
    "brk-1" none 0 rfl
    (by norm_num [alphaState, alphaPortfolio, limitBuyReq, validate_trade])
  have h2 := limit_order_submission_and_fill_lifecycle.2 alphaStateWithPending "brk-1"
    fillPayload 5 (mkPendingOrder "brk-1" limitBuyReq 0)
    (by norm_num [alphaStateWithPending, alookup])
  have hf : filledWithPrice
      (applyStatusData (mkPendingOrder "brk-1" limitBuyReq 0) fillPayload 5) = true := by
    norm_num [filledWithPrice, applyStatusData, mkPendingOrder, limitBuyReq, fillPayload]
  exact ⟨h1, (h2.2.2.1 hf).1, (h2.2.2.1 hf).2⟩

/-- C2: `OrderTracker` never applies a fill to the tenant ledger.  Universally,
`update_order_status` leaves the portfolio component untouched; at the concrete
complete fill of the pending alpha limit order (buy 10 AAPL at 150) exactly one
TradeRecord is appended while cash stays 10000 and no AAPL position is
created. -/
theorem order_fill_leaves_ledger_untouched :
    (∀ (st : ExecState) (oid : String) (sd : StatusData) (now : ℕ),
      (update_order_status st oid sd now).1.portfolio = st.portfolio)
    ∧ (update_order_status alphaStateWithPending "brk-1" fillPayload 5).1.trades.length = 1
    ∧ (update_order_status alphaStateWithPending "brk-1" fillPayload 5).1.portfolio.freeCash
        = 10000
    ∧ alookup
        (update_order_status alphaStateWithPending "brk-1" fillPayload 5).1.portfolio.positions
        "AAPL" = none := by
  refine ⟨?_, ?_, ?_, ?_⟩
  · intro st oid sd now
    cases h : alookup st.pending oid with
    | none => simp [update_order_status, h]
    | some o =>
      simp only [update_order_status, h]
      split <;> rfl
  · norm_num [update_order_status, alphaStateWithPending, alookup, applyStatusData,
      mkPendingOrder, limitBuyReq, fillPayload, filledWithPrice, tradeRecordFromOrder]
  · norm_num [update_order_status, alphaStateWithPending, alookup, applyStatusData,
      mkPendingOrder, limitBuyReq, fillPayload, filledWithPrice, alphaPortfolio]
  · norm_num [update_order_status, alphaStateWithPending, alookup, applyStatusData,
      mkPendingOrder, limitBuyReq, fillPayload, filledWithPrice, alphaPortfolio]

/-- C3: the signal schema of `app/models/trading.py` accepts a raw signal with
negative quantity, zero price and no time_in_force (so no SignalError is
produced for it), and the dispatch of any validated signal, including a fully
spec-conformant one, escapes `_execute_team_strategy` with an AttributeError at
the `signal.order_type` read instead of producing a trade or a logged
SignalError. -/
theorem signal_schema_accepts_invalid_and_dispatch_raises :
    validateStrategySignal badRawSignal =
      some { symbol := "AAPL", action := .buy, quantity := -5, price := 0,
             confidence := none, reason := none }
    ∧ executeTeamStrategy "alpha" alphaState [] (.ok (some badRawSignal)) true
        BrokerEnv.noBroker 0 =
      .error "AttributeError: StrategySignal object has no attribute order_type"
    ∧ executeTeamStrategy "alpha" alphaState [] (.ok (some conformantRawSignal)) true
        BrokerEnv.noBroker 0 =
      .error "AttributeError: StrategySignal object has no attribute order_type" := by
  refine ⟨?_, ?_, ?_⟩
  · norm_num [validateStrategySignal, badRawSignal, parseSide]
  · norm_num [executeTeamStrategy, validateStrategySignal, badRawSignal, parseSide,
      signalOrderTypeAttr]
  · norm_num [executeTeamStrategy, validateStrategySignal, conformantRawSignal, parseSide,
      signalOrderTypeAttr]

theorem executeTeamStrategy_ok_snaps (team : String) (st : ExecState)
    (errors : List ErrorEntry) (res : SignalCallResult) (symbolTrading : Bool)
    (broker : BrokerEnv) (now : ℕ) (e : ExecState) (errs : List ErrorEntry)
    (h : executeTeamStrategy team st errors res symbolTrading broker now = .ok (e, errs)) :
    e.snaps = st.snaps := by
  cases res with
  | timeout =>
    simp [executeTeamStrategy] at h
    rw [← h.1]
  | raised msg =>
    simp [executeTeamStrategy] at h
    rw [← h.1]
  | ok raw =>
    cases raw with
    | none =>
      simp [executeTeamStrategy] at h
      rw [← h.1]
    | some r =>
      cases hv : validateStrategySignal r with
      | none =>
        simp [executeTeamStrategy, hv] at h
        rw [← h.1]
      | some sig =>
        simp [executeTeamStrategy, hv, signalOrderTypeAttr] at h

/-- C6 counterexample: the two-file unit `cexRepo` passes the pre-activation
check although its non-entry file imports the blacklisted module os and calls
the dynamic-execution primitive exec (that file is never scanned), and its
entry file imports io — a symbol outside any numeric/statistics allow-list and
a file-access module — and calls the file primitive io.open through an
attribute. -/
theorem entry_only_denylist_scan_accepts_unit :
    fetchOneAccepts cexRepo "strategy:Strategy" = true
    ∧ cexHelperFile ∈ cexRepo
    ∧ PyNode.importRoot "os" ∈ cexHelperFile.nodes
    ∧ PyNode.callName "exec" ∈ cexHelperFile.nodes
    ∧ "os" ∈ BLACKLISTED_IMPORTS
    ∧ PyNode.importRoot "io" ∈ cexEntryFile.nodes
    ∧ PyNode.callAttr "io" "open" ∈ cexEntryFile.nodes
    ∧ "io" ∉ BLACKLISTED_IMPORTS := by
  decide

/-- C6 (amended): before activation only the declared entry-point file of the
unit is statically scanned; the unit is accepted exactly when that file parses,
imports no module whose root is on the declared deny-list, and makes no direct
bare-name call of open, exec, eval or __import__; every other referenced symbol
is allowed, and files other than the entry file never influence the
decision. -/
theorem ast_check_entry_denylist_characterization :
    (∀ (repo : List PyFile) (ep : String) (f : PyFile),
      repo.find? (fun g => g.name = entryFileName ep) = some f →
      (fetchOneAccepts repo ep = true ↔
        (f.parses = true
         ∧ (∀ r, PyNode.importRoot r ∈ f.nodes → r ∉ BLACKLISTED_IMPORTS)
         ∧ (∀ fn, PyNode.callName fn ∈ f.nodes → fn ∉ bannedBuiltins))))
    ∧ (∀ (repo : List PyFile) (ep : String) (g : PyFile),
        ¬(g.name = entryFileName ep) →
        fetchOneAccepts (repo ++ [g]) ep = fetchOneAccepts repo ep) := by
  constructor
  · intro repo ep f hfind
    simp only [fetchOneAccepts, ast_sanity_check, hfind]
    rw [scanFileOk, Bool.and_eq_true, List.all_eq_true]
    constructor
    · rintro ⟨hp, hall⟩
      refine ⟨hp, ?_, ?_⟩
      · intro r hr
        have := hall _ hr
        simpa using this
      · intro fn hfn
        have := hall _ hfn
        simpa using this
    · rintro ⟨hp, himp, hcall⟩
      refine ⟨hp, ?_⟩
      intro n hn
      cases n with
      | importRoot r => simpa using himp r hn
      | callName fn => simpa using hcall fn hn
      | callAttr o fn => rfl
      | other => rfl
  · intro repo ep g hg
    simp only [fetchOneAccepts, ast_sanity_check]
    have : List.find? (fun f => decide (f.name = entryFileName ep)) (repo ++ [g]) =
        List.find? (fun f => decide (f.name = entryFileName ep)) repo := by
      induction repo with
      | nil => simp [List.find?, hg]
      | cons a l ih =>
        cases hpa : decide (a.name = entryFileName ep) <;>
          simp [List.find?, hpa, ih]
    rw [this]

/-- Witness for C6: the amended characterization applied at the concrete unit:
the entry file is the one found, the acceptance criteria hold for it, and
appending the helper file does not change the decision. -/
theorem ast_check_entry_denylist_characterization_witness :
    fetchOneAccepts cexRepo "strategy:Strategy" = true ∧
    fetchOneAccepts ([cexEntryFile] ++ [cexHelperFile]) "strategy:Strategy" =
      fetchOneAccepts [cexEntryFile] "strategy:Strategy" := by
  constructor
  · refine (ast_check_entry_denylist_characterization.1 cexRepo "strategy:Strategy"
      cexEntryFile (by decide)).mpr ⟨rfl, ?_, ?_⟩
    · intro r hr
      simp [cexEntryFile] at hr
      rcases hr with rfl | rfl <;> decide
    · intro fn hfn
      simp [cexEntryFile] at hfn
  · exact ast_check_entry_denylist_characterization.2 [cexEntryFile] "strategy:Strategy"
      cexHelperFile (by decide)

/-- C7: on every tick exactly one PortfolioSnapshot is appended for each
registered tenant — in particular for each active one — whatever bars were
fetched, whatever the signal-call outcome (timeout, raise, no signal, invalid
or valid signal), whatever the broker: the snapshot count rises by exactly
one. -/
theorem one_snapshot_per_tenant_per_tick
    (marketOpenNow env247 : Bool) (bars : List (String × ℚ))
    (res : SignalCallResult) (symbolTrading : Bool) (broker : BrokerEnv)
    (now : ℕ) (t : TeamSt) :
    (tickTeam marketOpenNow env247 bars res symbolTrading broker now t).1.exec.snaps =
      t.exec.snaps + 1 := by
  unfold tickTeam
  by_cases hs : shouldRun t marketOpenNow env247 = true
  · rw [if_pos hs]
    cases hres : executeTeamStrategy t.name (preTradeSnapshot bars t).exec
        (preTradeSnapshot bars t).errors res symbolTrading broker now with
    | error e => simp [hres, preTradeSnapshot]
    | ok pr =>
      obtain ⟨e, errs⟩ := pr
      have hsn := executeTeamStrategy_ok_snaps _ _ _ _ _ _ _ _ _ hres
      simp [hres, hsn, preTradeSnapshot]
  · rw [if_neg hs]
    simp [preTradeSnapshot]

/-- C8: the per-tick signal call runs under the fixed 5-second bound
(`timeout_sec = 5`); a timeout or an exception raised by tenant code is caught,
appended once to that tenant error log with phase signal_generation (timeout
flag set exactly on timeouts), treated as no signal (execution state
untouched), and the function returns normally instead of propagating; and the
tick fan-out processes each tenant independently, so one tenant outcome never
influences the processing of the remaining tenants. -/
theorem strategy_timeout_and_exception_isolated :
    timeout_sec = 5
    ∧ (∀ (team : String) (st : ExecState) (errors : List ErrorEntry)
        (symbolTrading : Bool) (broker : BrokerEnv) (now : ℕ),
        executeTeamStrategy team st errors .timeout symbolTrading broker now =
          .ok (st, errors ++
            [{ team := team, phase := "signal_generation", timeout := true }]))
    ∧ (∀ (team : String) (st : ExecState) (errors : List ErrorEntry) (msg : String)
        (symbolTrading : Bool) (broker : BrokerEnv) (now : ℕ),
        executeTeamStrategy team st errors (.raised msg) symbolTrading broker now =
          .ok (st, errors ++
            [{ team := team, phase := "signal_generation", timeout := false }]))
    ∧ (∀ (marketOpenNow env247 : Bool) (bars : List (String × ℚ))
        (resOf : String → SignalCallResult) (symbolTrading : Bool)
        (broker : BrokerEnv) (now : ℕ) (t : TeamSt) (rest : List TeamSt),
        processTick marketOpenNow env247 bars resOf symbolTrading broker now (t :: rest) =
          tickTeam marketOpenNow env247 bars (resOf t.name) symbolTrading broker now t ::
            processTick marketOpenNow env247 bars resOf symbolTrading broker now rest) :=
  ⟨rfl, fun _ _ _ _ _ _ => rfl, fun _ _ _ _ _ _ _ => rfl,
    fun _ _ _ _ _ _ _ _ _ => rfl⟩

/-- C9 counterexample: a day log that exists but contains no parseable row (one
corrupt line) is deleted by the fold although no merge write into the store has
happened at all: the store stays absent while the source log is gone, and this
occurs even when the write would have failed. -/
theorem corrupt_day_log_deleted_without_merge :
    foldDailyPortfolio corruptOnlyFold true false =
      { jsonl := none, parquet := none }
    ∧ corruptOnlyFold.jsonl = some [JLine.corrupt]
    ∧ corruptOnlyFold.parquet = none := by
  refine ⟨?_, rfl, rfl⟩
  rfl

/-- C9 (amended): for a day log holding at least one parseable row, the raw log
is deleted only after the merge write into the consolidated store has completed
successfully — on a failed write the whole state, the source log included,
survives unchanged; a log with no parseable rows, however, is deleted without
any merge write. -/
theorem fold_deletes_only_after_successful_merge
    (st : FoldState) (lines : List JLine) (readOldOk : Bool)
    (h : st.jsonl = some lines) (hrows : parseRows lines ≠ []) :
    (foldDailyPortfolio st readOldOk false = st)
    ∧ ((foldDailyPortfolio st readOldOk true).jsonl = none
       ∧ (foldDailyPortfolio st readOldOk true).parquet =
           some (dedupKeepLast (sortRows (dfAllRows st.parquet readOldOk
             (parseRows lines))))) := by
  have hne : (parseRows lines).isEmpty = false := by
    cases hp : parseRows lines with
    | nil => exact absurd hp hrows
    | cons a l => rfl
  refine ⟨?_, ?_, ?_⟩
  · simp [foldDailyPortfolio, h, hne]
  · simp [foldDailyPortfolio, h, hne]
  · simp [foldDailyPortfolio, h, hne]

/-- Witness for C9: the one-row day log survives a failed write unchanged and
is deleted exactly on the successful write that lands its row in the store. -/
theorem fold_deletes_only_after_successful_merge_witness :
    (foldDailyPortfolio oneRowFold true false = oneRowFold)
    ∧ (foldDailyPortfolio oneRowFold true true).jsonl = none
    ∧ (foldDailyPortfolio oneRowFold true true).parquet =
        some (dedupKeepLast (sortRows (dfAllRows oneRowFold.parquet true
          (parseRows [JLine.row 1 "snap"])))) := by
  have h := fold_deletes_only_after_successful_merge oneRowFold [JLine.row 1 "snap"] true
    rfl (by decide)
  exact ⟨h.1, h.2.1, h.2.2⟩

/-- C10: the orchestrator appends the pre-trade snapshot for every registered
tenant, the inactive ones included: the active test gates only strategy
dispatch.  The dispatch flag equals the active test; an inactive tenant tick is
exactly the snapshot append; the snapshot append raises the count by one for
any tenant; and the fan-out covers every registered tenant. -/
theorem snapshot_for_all_registered_dispatch_gated
    (marketOpenNow env247 : Bool) (bars : List (String × ℚ))
    (res : SignalCallResult) (symbolTrading : Bool) (broker : BrokerEnv)
    (now : ℕ) (t : TeamSt) :
    ((tickTeam marketOpenNow env247 bars res symbolTrading broker now t).2 =
      shouldRun t marketOpenNow env247)
    ∧ (shouldRun t marketOpenNow env247 = false →
        tickTeam marketOpenNow env247 bars res symbolTrading broker now t =
          (preTradeSnapshot bars t, false))
    ∧ (preTradeSnapshot bars t).exec.snaps = t.exec.snaps + 1
    ∧ (∀ (teams : List TeamSt) (resOf : String → SignalCallResult),
        (processTick marketOpenNow env247 bars resOf symbolTrading broker now
          teams).length = teams.length) := by
  refine ⟨?_, ?_, by simp [preTradeSnapshot], fun teams resOf => by simp [processTick]⟩
  · unfold tickTeam
    by_cases hs : shouldRun t marketOpenNow env247 = true
    · rw [if_pos hs, hs]
      cases hres : executeTeamStrategy t.name (preTradeSnapshot bars t).exec
          (preTradeSnapshot bars t).errors res symbolTrading broker now with
      | error e => simp [hres]
      | ok pr =>
        obtain ⟨e, errs⟩ := pr
        simp [hres]
    · rw [if_neg hs]
      simp at hs
      rw [hs]
  · intro hfalse
    unfold tickTeam
    rw [if_neg (by simp [hfalse])]

/-- Witness for C10: tenant alpha with the market closed and no run_24_7 flag
is not dispatched, yet its pre-trade snapshot is still appended. -/
theorem snapshot_for_all_registered_dispatch_gated_witness :
    tickTeam false false [] (.ok none) true BrokerEnv.noBroker 0 alphaTeam =
      (preTradeSnapshot [] alphaTeam, false) ∧
    (preTradeSnapshot [] alphaTeam).exec.snaps = alphaTeam.exec.snaps + 1 := by
  have h := snapshot_for_all_registered_dispatch_gated false false [] (.ok none) true
    BrokerEnv.noBroker 0 alphaTeam
  exact ⟨h.2.1 (by decide), h.2.2.1⟩

end QTC

